import Mathlib

/-!
Verification of the WhatPulse browser-extension background worker
(`src/background/background.js`).

The development shallowly embeds the pure core of the background service
worker: the domain extractor, the time/input accumulator state machine, the
usage-report builder and sender, the metadata-staleness check, and the
outbound message envelope.  JavaScript objects keyed by domain strings are
embedded as insertion-ordered association lists (matching JS property-order
semantics), JS numbers used as counters/timestamps as `Nat`, and the one
floating-point accumulator (`mouseDistanceIn`) as `ℚ`.  JS truthiness tests
on possibly-absent strings and numbers are embedded explicitly
(`truthyStr`, `truthyNat`): `null`/`undefined`, `""` and `0` are falsy.
-/

namespace WhatPulse

/-- Constant `METADATA_MAX_AGE_DAYS * 24 * 60 * 60 * 1000` from
`needsMetadataUpdate` in background.js (7 days in milliseconds). -/
def METADATA_MAX_AGE_MS : Nat := 7 * 24 * 60 * 60 * 1000

/-! ## Domain extractor (`extractDomain`, background.js lines 88-127) -/

/-- JS `String.prototype.includes` restricted to a single character, on the
character-list view of a string. -/
def hasChar : List Char → Char → Bool
  | [], _ => false
  | c :: cs, a => if c = a then true else hasChar cs a

/-- JS `String.prototype.split('.')`: the maximal dot-free segments of the
string, in order; always non-empty ( `"".split('.')` is `[""]` ). -/
def splitOnDot : List Char → List (List Char)
  | [] => [[]]
  | c :: cs =>
    if c = '.' then [] :: splitOnDot cs
    else
      match splitOnDot cs with
      | [] => [[c]]
      | g :: gs => (c :: g) :: gs

/-- The regex character class `\d`. -/
def isDigitChar (c : Char) : Bool := '0' ≤ c && c ≤ '9'

/-- One `\d{1,3}` group of the IPv4 regex in `extractDomain`. -/
def iPv4Group (g : List Char) : Bool :=
  decide (1 ≤ g.length) && decide (g.length ≤ 3) && g.all isDigitChar

/-- The anchored regex `^(\d{1,3}\.){3}\d{1,3}$` from `extractDomain`:
exactly four dot-separated groups of one to three digits. -/
def iPv4Literal (h : List Char) : Bool :=
  match splitOnDot h with
  | [a, b, c, d] => iPv4Group a && iPv4Group b && iPv4Group c && iPv4Group d
  | _ => false

/-- JS `hostname.replace(/^www\./, '')`: strips one leading `www.` label. -/
def stripWWW (h : List Char) : List Char :=
  if h.take 4 = ['w', 'w', 'w', '.'] then h.drop 4 else h

/-- The two attributes of the parsed `URL` object that `extractDomain`
reads: `urlObj.protocol` (scheme with trailing colon, lowercased by the
parser) and `urlObj.hostname` (lowercased by the parser). -/
structure URLParts where
  protocol : String
  hostname : String
deriving DecidableEq

/-- Body of `extractDomain` after the `new URL(url)` parse succeeded
(background.js lines 94-122): reject non-http(s) schemes, strip a leading
`www.`, reject IPv4 literals and hosts containing `':'`, require a dot and
a final label of length at least 2, otherwise return the stripped host. -/
def extractDomainParts (u : URLParts) : Option String :=
  if u.protocol ≠ "http:" ∧ u.protocol ≠ "https:" then none
  else if iPv4Literal (stripWWW u.hostname.data) || hasChar (stripWWW u.hostname.data) ':' then none
  else if hasChar (stripWWW u.hostname.data) '.' = false then none
  else if ((splitOnDot (stripWWW u.hostname.data)).getLastD []).length < 2 then none
  else some (String.mk (stripWWW u.hostname.data))

/-- A character that ends the host component of a URL authority. -/
def hostDelim (c : Char) : Bool := c = '/' || c = '?' || c = '#' || c = ':'

/-- Modelled from the platform (WHATWG `new URL`, external to the repo):
the hostname of the part after `scheme://` is everything up to the first
delimiter, case-normalized to lowercase by the parser. -/
def hostOf (rest : List Char) : String :=
  String.mk ((rest.takeWhile fun c => !hostDelim c).map Char.toLower)

/-- Modelled from the platform (WHATWG `new URL`, external to the repo),
restricted to absolute lowercase-scheme `http`/`https` URLs, which is all
`extractDomain`'s non-`none` paths can see: any other input is treated as
the parse-failure (`catch`) path. -/
def parseURLChars : List Char → Option URLParts
  | 'h' :: 't' :: 't' :: 'p' :: ':' :: '/' :: '/' :: rest => some ⟨"http:", hostOf rest⟩
  | 'h' :: 't' :: 't' :: 'p' :: 's' :: ':' :: '/' :: '/' :: rest => some ⟨"https:", hostOf rest⟩
  | _ => none

/-- `extractDomain(url)` from background.js: parse the URL (a failed parse
is caught and yields `null`), then apply the domain rules. -/
def extractDomain (url : String) : Option String :=
  match parseURLChars url.data with
  | some u => extractDomainParts u
  | none => none

/-! ## Tracking state (background.js lines 26-48) -/

/-- The two fields of `currentState` that gate time/input accounting. The
remaining fields (`activeTabId`, `activeWindowId`, `activeDomain`,
`isVisible`) are browser-glue and are read by none of the embedded
operations. -/
structure CurrentState where
  isFocused : Bool
  isIdle : Bool
deriving DecidableEq

/-- One per-domain entry of `accumulatedInput`:
`{ keys, clicks, scrolls, mouseDistanceIn }`. -/
structure InputEntry where
  keys : Nat
  clicks : Nat
  scrolls : Nat
  mouseDistanceIn : ℚ
deriving DecidableEq

/-- The `timeTracking` state object: current domain, interval start
timestamp, per-domain accumulated whole seconds (insertion-ordered map),
and the start of the current reporting period. -/
structure TimeTracking where
  currentDomain : Option String
  domainStartTime : Option Nat
  accumulatedTime : List (String × Nat)
  lastReportTime : Nat
deriving DecidableEq

/-- JS truthiness of a possibly-absent string: `null`/`undefined` and `""`
are falsy. -/
def truthyStr : Option String → Bool
  | none => false
  | some s => s != ""

/-- JS truthiness of a possibly-absent number: `null`/`undefined` and `0`
are falsy. -/
def truthyNat : Option Nat → Bool
  | none => false
  | some n => n != 0

/-- JS property read `m[d]` on a domain-keyed object of numbers. -/
def lookupNat : List (String × Nat) → String → Option Nat
  | [], _ => none
  | (d', v) :: rest, d => if d' = d then some v else lookupNat rest d

/-- JS `m[d] = (m[d] || 0) + s` on a domain-keyed object of numbers: update
the existing entry in place, or append a new key at the end. -/
def addTime : List (String × Nat) → String → Nat → List (String × Nat)
  | [], d, s => [(d, s)]
  | (d', v) :: rest, d, s =>
    if d' = d then (d', v + s) :: rest else (d', v) :: addTime rest d s

/-- JS property read `accumulatedInput[d]`. -/
def lookupInput : List (String × InputEntry) → String → Option InputEntry
  | [], _ => none
  | (d', e) :: rest, d => if d' = d then some e else lookupInput rest d

/-- The four `+=` statements of the `inputStats` handler applied to one
entry. -/
def addDelta (e : InputEntry) (k c s : Nat) (m : ℚ) : InputEntry :=
  ⟨e.keys + k, e.clicks + c, e.scrolls + s, e.mouseDistanceIn + m⟩

/-- The `inputStats` accumulation (background.js lines 815-821): create a
zero entry if the domain is absent, then add the deltas. -/
def addInput : List (String × InputEntry) → String → Nat → Nat → Nat → ℚ → List (String × InputEntry)
  | [], d, k, c, s, m => [(d, addDelta ⟨0, 0, 0, 0⟩ k c s m)]
  | (d', e) :: rest, d, k, c, s, m =>
    if d' = d then (d', addDelta e k c s m) :: rest
    else (d', e) :: addInput rest d k c s m

/-! ## Time tracking operations (background.js lines 352-408) -/

/-- `recordTimeAndSwitchDomain(newDomain)` (background.js lines 352-375):
if a domain was being tracked with a start timestamp and the browser is
focused and not idle, add the elapsed whole seconds (when positive) to that
domain; then start tracking `newDomain` from `now` (or stop tracking when
`newDomain` is falsy). -/
def recordTimeAndSwitchDomain (cs : CurrentState) (tt : TimeTracking)
    (newDomain : Option String) (now : Nat) : TimeTracking :=
  let tt1 :=
    if truthyStr tt.currentDomain && truthyNat tt.domainStartTime then
      if cs.isFocused && !cs.isIdle then
        let elapsedSeconds := (now - tt.domainStartTime.getD 0) / 1000
        if 0 < elapsedSeconds then
          { tt with accumulatedTime :=
              addTime tt.accumulatedTime (tt.currentDomain.getD "") elapsedSeconds }
        else tt
      else tt
    else tt
  { tt1 with
      currentDomain := newDomain,
      domainStartTime := if truthyStr newDomain then some now else none }

/-- `pauseTimeTracking()` (background.js lines 380-398): record the elapsed
whole seconds for the tracked domain (when positive), then clear the start
timestamp but keep the current domain. -/
def pauseTimeTracking (tt : TimeTracking) (now : Nat) : TimeTracking :=
  if truthyStr tt.currentDomain && truthyNat tt.domainStartTime then
    let elapsedSeconds := (now - tt.domainStartTime.getD 0) / 1000
    let tt1 :=
      if 0 < elapsedSeconds then
        { tt with accumulatedTime :=
            addTime tt.accumulatedTime (tt.currentDomain.getD "") elapsedSeconds }
      else tt
    { tt1 with domainStartTime := none }
  else tt

/-- `resumeTimeTracking()` (background.js lines 403-408): if a domain is
held with no start timestamp, begin a new interval at `now`. -/
def resumeTimeTracking (tt : TimeTracking) (now : Nat) : TimeTracking :=
  if truthyStr tt.currentDomain && !truthyNat tt.domainStartTime then
    { tt with domainStartTime := some now }
  else tt

/-- The close-out step at the top of `sendUsageReport` (background.js lines
415-429): while focused and not idle, fold the in-progress interval into
the accumulated map and re-open the interval at `now`. -/
def closeOutTick (cs : CurrentState) (tt : TimeTracking) (now : Nat) : TimeTracking :=
  if truthyStr tt.currentDomain && truthyNat tt.domainStartTime &&
      cs.isFocused && !cs.isIdle then
    let elapsedSeconds := (now - tt.domainStartTime.getD 0) / 1000
    if 0 < elapsedSeconds then
      { tt with
          accumulatedTime := addTime tt.accumulatedTime (tt.currentDomain.getD "") elapsedSeconds,
          domainStartTime := some now }
    else tt
  else tt

/-! ## Usage report (background.js lines 431-481) -/

/-- One element of the `report` array of a `usage_report` message. -/
structure ReportEntry where
  domain : String
  seconds : Nat
  keys : Nat
  clicks : Nat
  scrolls : Nat
  mouse_distance_in : ℚ
deriving DecidableEq

/-- The `usage_report` payload: report list plus period boundaries. -/
structure UsageReportMsg where
  report : List ReportEntry
  period_start : Nat
  period_end : Nat
deriving DecidableEq

/-- First report-builder loop (background.js lines 435-447): one entry per
domain with positive accumulated seconds, merged with that domain's input
(defaulting to zeros). -/
def timeEntry (inp : List (String × InputEntry)) (p : String × Nat) : Option ReportEntry :=
  if 0 < p.2 then
    let i := (lookupInput inp p.1).getD ⟨0, 0, 0, 0⟩
    some ⟨p.1, p.2, i.keys, i.clicks, i.scrolls, i.mouseDistanceIn⟩
  else none

/-- Second report-builder loop (background.js lines 450-461): an entry with
zero seconds for each domain that has input but a falsy accumulated-time
value. -/
def inputOnlyEntry (acc : List (String × Nat)) (p : String × InputEntry) : Option ReportEntry :=
  if !truthyNat (lookupNat acc p.1) &&
      (p.2.keys != 0 || p.2.clicks != 0 || p.2.scrolls != 0 || p.2.mouseDistanceIn != 0) then
    some ⟨p.1, 0, p.2.keys, p.2.clicks, p.2.scrolls, p.2.mouseDistanceIn⟩
  else none

/-- The `report` array built by `sendUsageReport`: time-backed entries in
map order, then input-only entries. -/
def buildReport (acc : List (String × Nat)) (inp : List (String × InputEntry)) :
    List ReportEntry :=
  acc.filterMap (timeEntry inp) ++ inp.filterMap (inputOnlyEntry acc)

/-- `sendUsageReport()` (background.js lines 413-481) as a state transition.
`sendOk` is the boolean returned by the underlying `sendMessage` call (the
call is only made when the report is non-empty).  Returns the new
`timeTracking` state, the new `accumulatedInput` map, and the
`usage_report` message that went out (if any). -/
def sendUsageReport (cs : CurrentState) (tt : TimeTracking)
    (inp : List (String × InputEntry)) (now : Nat) (sendOk : Bool) :
    TimeTracking × List (String × InputEntry) × Option UsageReportMsg :=
  if 0 < (buildReport (closeOutTick cs tt now).accumulatedTime inp).length then
    if sendOk then
      ({ closeOutTick cs tt now with accumulatedTime := [], lastReportTime := now }, [],
        some ⟨buildReport (closeOutTick cs tt now).accumulatedTime inp,
              (closeOutTick cs tt now).lastReportTime, now⟩)
    else (closeOutTick cs tt now, inp, none)
  else (closeOutTick cs tt now, inp, none)

/-! ## Input stats handler (background.js lines 808-824) -/

/-- The `inputStats` branch of the `chrome.runtime.onMessage` listener:
`domain` is the result of `extractDomain(sender.tab.url)`; the deltas are
accumulated only when the domain is truthy and the browser is focused and
not idle, otherwise the message is dropped. -/
def handleInputStats (cs : CurrentState) (inp : List (String × InputEntry))
    (domain : Option String) (k c s : Nat) (m : ℚ) : List (String × InputEntry) :=
  if truthyStr domain && cs.isFocused && !cs.isIdle then
    addInput inp (domain.getD "") k c s m
  else inp

/-! ## Metadata cache (background.js lines 291-299) -/

/-- `needsMetadataUpdate(domain)`: false for a falsy domain; true when the
map holds no truthy record; else true iff the record is older than
`METADATA_MAX_AGE_MS`. -/
def needsMetadataUpdate (times : List (String × Nat)) (domain : String) (now : Nat) : Bool :=
  if domain = "" then false
  else
    match lookupNat times domain with
    | none => true
    | some lastSent =>
      if lastSent = 0 then true
      else decide (METADATA_MAX_AGE_MS < now - lastSent)

/-! ## Session transport (`sendMessage`, background.js lines 596-612) -/

/-- The `WebSocket.readyState` values. (`open` is a Lean keyword, hence
`opened`.) -/
inductive ReadyState where
  | connecting
  | opened
  | closing
  | closed
deriving DecidableEq

/-- A message after the envelope stamping in `sendMessage`:
`msg.schema_version = 1; msg.ts = Date.now(); msg.client_id = clientId`. -/
structure Stamped (α : Type) where
  body : α
  schema_version : Nat
  ts : Nat
  client_id : Option String
deriving DecidableEq

/-- `sendMessage(msg)`: returns `false` when the socket is absent or not
`OPEN`; otherwise stamps the envelope and attempts `websocket.send`, whose
exception (modelled by `sendThrows`) is caught and turned into `false`.
First component: the message delivered to the socket (`none` when nothing
was delivered); second: the boolean `sendMessage` returns. -/
def sendMessage {α : Type} (ws : Option ReadyState) (clientId : Option String)
    (now : Nat) (msg : α) (sendThrows : Bool) : Option (Stamped α) × Bool :=
  match ws with
  | some ReadyState.opened =>
    if sendThrows then (none, false) else (some ⟨msg, 1, now, clientId⟩, true)
  | _ => (none, false)

/-! ## Event-driven operation (background.js lines 747-789) -/

/-- Combined tracking-relevant state: the focus/idle flags plus the
`timeTracking` object. -/
structure Sys where
  cs : CurrentState
  tt : TimeTracking
deriving DecidableEq

/-- The browser events that drive the accumulator: a window-focus loss, a
window-focus gain (carrying the domain `updateCurrentTab` resolves for the
active tab), an idle-state change, and a tab activation/URL change
(likewise carrying the resolved domain). -/
inductive Ev where
  | focusLoss
  | focusGain (d : Option String)
  | idleChange (idle : Bool)
  | navigate (d : Option String)
deriving DecidableEq

/-- `updateCurrentTab()` (background.js lines 701-743) restricted to its
effect on `timeTracking`: switch domains only when the resolved domain
changed.  The no-tab and incognito paths coincide with `d = none` here. -/
def updateCurrentTab (cs : CurrentState) (tt : TimeTracking)
    (d : Option String) (now : Nat) : TimeTracking :=
  if d ≠ tt.currentDomain then recordTimeAndSwitchDomain cs tt d now else tt

/-- One step of the event listeners (background.js lines 747-789):
`chrome.windows.onFocusChanged` sets `isFocused` first, pauses on loss, and
on gain runs `updateCurrentTab` then resumes unless idle;
`chrome.idle.onStateChanged` sets `isIdle` first, pauses on idle onset, and
resumes on idle exit while focused; tab events run `updateCurrentTab`. -/
def step (s : Sys) (now : Nat) : Ev → Sys
  | Ev.focusLoss =>
    let wasF := s.cs.isFocused
    let cs1 := { s.cs with isFocused := false }
    if wasF then ⟨cs1, pauseTimeTracking s.tt now⟩ else ⟨cs1, s.tt⟩
  | Ev.focusGain d =>
    let wasF := s.cs.isFocused
    let cs1 := { s.cs with isFocused := true }
    if !wasF then
      let tt1 := updateCurrentTab cs1 s.tt d now
      ⟨cs1, if !cs1.isIdle then resumeTimeTracking tt1 now else tt1⟩
    else ⟨cs1, s.tt⟩
  | Ev.idleChange b =>
    let wasI := s.cs.isIdle
    let cs1 := { s.cs with isIdle := b }
    if b && !wasI then ⟨cs1, pauseTimeTracking s.tt now⟩
    else if !b && wasI && cs1.isFocused then ⟨cs1, resumeTimeTracking s.tt now⟩
    else ⟨cs1, s.tt⟩
  | Ev.navigate d => ⟨s.cs, updateCurrentTab s.cs s.tt d now⟩

/-- Run a timestamped event trace through `step`. -/
def runTrace : Sys → List (Nat × Ev) → Sys
  | s, [] => s
  | s, (t, e) :: rest => runTrace (step s t e) rest

/-- Total seconds attributed across all domains of an accumulated-time
map. -/
def sumAcc (m : List (String × Nat)) : Nat := (m.map Prod.snd).sum

/-- Wall-clock milliseconds, along a timestamped trace started at `t0`,
during which `isFocused && !isIdle` held. -/
def activeMs : Sys → Nat → List (Nat × Ev) → Nat
  | _, _, [] => 0
  | s, t0, (t, e) :: rest =>
    (if s.cs.isFocused && !s.cs.isIdle then t - t0 else 0) + activeMs (step s t e) t rest

/-- Decidable form of the accumulated-time map invariant: every stored
value is strictly positive. -/
def allPosTimes (m : List (String × Nat)) : Bool :=
  m.all fun p => decide (0 < p.2)

/-! ## Helper lemmas -/

/-- The tick close-out never touches `lastReportTime`. -/
theorem closeOutTick_lastReportTime (cs : CurrentState) (tt : TimeTracking) (now : Nat) :
    (closeOutTick cs tt now).lastReportTime = tt.lastReportTime := by
  unfold closeOutTick
  split
  · dsimp only
    split <;> rfl
  · rfl

/-- Adding input deltas for `d` makes the entry at `d` the old entry (or a
zero entry) plus the deltas. -/
theorem lookupInput_addInput_self (inp : List (String × InputEntry)) (d : String)
    (k c s : Nat) (m : ℚ) :
    lookupInput (addInput inp d k c s m) d =
      some (addDelta ((lookupInput inp d).getD ⟨0, 0, 0, 0⟩) k c s m) := by
  induction inp with
  | nil => simp [addInput, lookupInput]
  | cons p rest ih =>
    obtain ⟨d', e⟩ := p
    by_cases hd : d' = d
    · subst hd
      simp [addInput, lookupInput]
    · simp [addInput, lookupInput, hd, ih]

/-- Adding input deltas for `d` leaves every other domain's entry
untouched. -/
theorem lookupInput_addInput_ne (inp : List (String × InputEntry)) (d d2 : String)
    (k c s : Nat) (m : ℚ) (hne : d2 ≠ d) :
    lookupInput (addInput inp d k c s m) d2 = lookupInput inp d2 := by
  induction inp with
  | nil => simp [addInput, lookupInput, Ne.symm hne]
  | cons p rest ih =>
    obtain ⟨d', e⟩ := p
    by_cases hd : d' = d
    · subst hd
      simp [addInput, lookupInput, Ne.symm hne]
    · by_cases hd2 : d' = d2
      · subst hd2
        simp [addInput, lookupInput, hd]
      · simp [addInput, lookupInput, hd, hd2, ih]

/-- `allPosTimes` unfolded to its membership form. -/
theorem allPosTimes_iff (m : List (String × Nat)) :
    allPosTimes m = true ↔ ∀ p ∈ m, 0 < p.2 := by
  unfold allPosTimes
  simp [List.all_eq_true]

/-- `addTime` with a positive increment preserves positivity of all stored
values. -/
theorem addTime_pos (m : List (String × Nat)) (d : String) (s : Nat)
    (hm : ∀ p ∈ m, 0 < p.2) (hs : 0 < s) : ∀ p ∈ addTime m d s, 0 < p.2 := by
  induction m with
  | nil =>
    intro p hp
    rw [addTime, List.mem_singleton] at hp
    subst hp
    exact hs
  | cons q rest ih =>
    obtain ⟨d', v⟩ := q
    intro p hp
    by_cases hd : d' = d
    · subst hd
      rw [addTime, if_pos rfl, List.mem_cons] at hp
      rcases hp with hp | hp
      · subst hp
        exact Nat.lt_of_lt_of_le (hm (d', v) (List.mem_cons_self _ _)) (Nat.le_add_right v s)
      · exact hm p (List.mem_cons_of_mem _ hp)
    · rw [addTime, if_neg hd, List.mem_cons] at hp
      rcases hp with hp | hp
      · subst hp
        exact hm (d', v) (List.mem_cons_self _ _)
      · exact ih (fun q hq => hm q (List.mem_cons_of_mem _ hq)) p hp

/-- A successful `lookupNat` exhibits a member of the map. -/
theorem lookupNat_mem (m : List (String × Nat)) (d : String) (v : Nat)
    (h : lookupNat m d = some v) : (d, v) ∈ m := by
  induction m with
  | nil => exact absurd h (by simp [lookupNat])
  | cons p rest ih =>
    obtain ⟨d', v'⟩ := p
    rw [lookupNat] at h
    split at h
    · next hd =>
      injection h with h2
      subst hd
      subst h2
      exact List.mem_cons_self _ _
    · exact List.mem_cons_of_mem _ (ih h)

/-- What a produced time-backed report entry looks like. -/
theorem timeEntry_some (inp : List (String × InputEntry)) (p : String × Nat) (e : ReportEntry)
    (hf : timeEntry inp p = some e) : 0 < p.2 ∧ e.domain = p.1 ∧ e.seconds = p.2 := by
  unfold timeEntry at hf
  split at hf
  · next hpos =>
    injection hf with h
    subst h
    exact ⟨hpos, rfl, rfl⟩
  · exact absurd hf (by simp)

/-- What a produced input-only report entry looks like. -/
theorem inputOnlyEntry_some (acc : List (String × Nat)) (p : String × InputEntry)
    (e : ReportEntry) (hf : inputOnlyEntry acc p = some e) :
    e.seconds = 0 ∧ e.domain = p.1 ∧ truthyNat (lookupNat acc p.1) = false := by
  unfold inputOnlyEntry at hf
  split at hf
  · next hcond =>
    injection hf with h
    subst h
    refine ⟨rfl, rfl, ?_⟩
    rw [Bool.and_eq_true] at hcond
    simpa using hcond.1
  · exact absurd hf (by simp)

/-- The seconds carried by the time-backed report entries are bounded by
the total accumulated seconds. -/
theorem filterMap_timeEntry_sum_le (inp : List (String × InputEntry))
    (acc : List (String × Nat)) :
    ((acc.filterMap (timeEntry inp)).map ReportEntry.seconds).sum ≤ (acc.map Prod.snd).sum := by
  induction acc with
  | nil => simp
  | cons p rest ih =>
    cases hf : timeEntry inp p with
    | none =>
      rw [List.filterMap_cons_none hf, List.map_cons, List.sum_cons]
      exact Nat.le_trans ih (Nat.le_add_left _ _)
    | some e =>
      rw [List.filterMap_cons_some hf, List.map_cons, List.sum_cons,
        List.map_cons, List.sum_cons, (timeEntry_some _ _ _ hf).2.2]
      exact Nat.add_le_add_left ih _

/-- Input-only report entries contribute zero seconds. -/
theorem inputOnly_sum_zero (acc : List (String × Nat)) (inp : List (String × InputEntry)) :
    ((inp.filterMap (inputOnlyEntry acc)).map ReportEntry.seconds).sum = 0 := by
  refine List.sum_eq_zero ?_
  intro x hx
  rcases List.mem_map.mp hx with ⟨e, he, rfl⟩
  rcases List.mem_filterMap.mp he with ⟨p, hp, hf⟩
  exact (inputOnlyEntry_some _ _ _ hf).1

/-- Splitting a `www.`-prefixed host on dots yields `www` as first group. -/
theorem splitOnDot_www (rest : List Char) :
    splitOnDot ('w' :: 'w' :: 'w' :: '.' :: rest) = ['w', 'w', 'w'] :: splitOnDot rest := by
  simp [splitOnDot]

/-- A `www.`-prefixed host never matches the IPv4 regex: its first group is
`www`, which is not made of digits. -/
theorem iPv4Literal_www (rest : List Char) :
    iPv4Literal ('w' :: 'w' :: 'w' :: '.' :: rest) = false := by
  unfold iPv4Literal
  rw [splitOnDot_www]
  cases h1 : splitOnDot rest with
  | nil => rfl
  | cons b gs =>
    cases gs with
    | nil => rfl
    | cons c gs2 =>
      cases gs2 with
      | nil => rfl
      | cons d gs3 =>
        cases gs3 with
        | nil => rfl
        | cons e gs4 => rfl

/-- An IPv4-literal host is unchanged by the `www.` strip. -/
theorem stripWWW_of_iPv4 (l : List Char) (h : iPv4Literal l = true) : stripWWW l = l := by
  unfold stripWWW
  split
  · next ht =>
    exfalso
    have hl : l = 'w' :: 'w' :: 'w' :: '.' :: l.drop 4 := by
      conv_lhs => rw [← List.take_append_drop 4 l]
      rw [ht]
      rfl
    rw [hl, iPv4Literal_www] at h
    exact Bool.false_ne_true h
  · rfl

/-- A colon in the host survives the `www.` strip. -/
theorem hasChar_colon_stripWWW (l : List Char) (hc : hasChar l ':' = true) :
    hasChar (stripWWW l) ':' = true := by
  unfold stripWWW
  split
  · next ht =>
    have hl : l = 'w' :: 'w' :: 'w' :: '.' :: l.drop 4 := by
      conv_lhs => rw [← List.take_append_drop 4 l]
      rw [ht]
      rfl
    rw [hl] at hc
    simpa [hasChar] using hc
  · exact hc

/-- `String.append` acts as list append on the character data. -/
theorem data_append (a b : String) : (a ++ b).data = a.data ++ b.data := by
  cases a
  cases b
  rfl

/-- `takeWhile` consumes exactly a prefix all of whose characters satisfy
the predicate when the next character fails it. -/
theorem takeWhile_append_of (p : Char → Bool) (l : List Char) (a : Char) (r : List Char)
    (hl : ∀ c ∈ l, p c = true) (ha : p a = false) :
    (l ++ a :: r).takeWhile p = l := by
  induction l with
  | nil =>
    rw [List.nil_append, List.takeWhile_cons, ha]
    rfl
  | cons x xs ih =>
    rw [List.cons_append, List.takeWhile_cons, hl x (List.mem_cons_self _ _), if_pos rfl,
      ih fun c hc => hl c (List.mem_cons_of_mem _ hc)]

/-- No character of a host whose lowercasing is `www.example.com` is a
host-ending delimiter. -/
theorem host_not_delim (host : List Char)
    (hcase : host.map Char.toLower = ("www.example.com" : String).data) :
    ∀ c ∈ host, (!hostDelim c) = true := by
  intro c hc
  have hmem : Char.toLower c ∈ (("www.example.com" : String).data) := by
    rw [← hcase]
    exact List.mem_map_of_mem Char.toLower hc
  cases hdc : hostDelim c with
  | false => rfl
  | true =>
    exfalso
    have hδ : ((c = '/' ∨ c = '?') ∨ c = '#') ∨ c = ':' := by
      simpa [hostDelim] using hdc
    rcases hδ with ((rfl | rfl) | rfl) | rfl
    · exact absurd hmem (by decide)
    · exact absurd hmem (by decide)
    · exact absurd hmem (by decide)
    · exact absurd hmem (by decide)

/-! ## Claims -/

/-- Claim C9 (confirmed). `pauseTimeTracking` is idempotent: a second call
at any later time is a no-op, since the first call cleared the start
timestamp (or the first call was already a no-op). -/
theorem pauseTimeTracking_idempotent (tt : TimeTracking) (t1 t2 : Nat) :
    pauseTimeTracking (pauseTimeTracking tt t1) t2 = pauseTimeTracking tt t1 := by
  by_cases h : (truthyStr tt.currentDomain && truthyNat tt.domainStartTime) = true
  · unfold pauseTimeTracking
    rw [if_pos h]
    dsimp only
    rw [if_neg (by simp [truthyNat])]
  · unfold pauseTimeTracking
    rw [if_neg h]
    rw [if_neg h]

/-- Claim C1 (corrected; amended form). A failed `sendUsageReport` leaves
the state exactly as the tick close-out left it (accumulated-input map and
`lastReportTime` unchanged, accumulated-time map changed only by folding in
the in-progress interval); a successful send of a non-empty report clears
both maps and sets `lastReportTime` to the send time, with the message
carrying `period_start = lastReportTime` and `period_end = now`. -/
theorem sendUsageReport_retry (cs : CurrentState) (tt : TimeTracking)
    (inp : List (String × InputEntry)) (now : Nat) :
    sendUsageReport cs tt inp now false = (closeOutTick cs tt now, inp, none)
    ∧ (0 < (buildReport (closeOutTick cs tt now).accumulatedTime inp).length →
        sendUsageReport cs tt inp now true =
          ({ closeOutTick cs tt now with accumulatedTime := [], lastReportTime := now }, [],
            some ⟨buildReport (closeOutTick cs tt now).accumulatedTime inp,
                  tt.lastReportTime, now⟩)) := by
  constructor
  · unfold sendUsageReport
    split
    · rfl
    · rfl
  · intro hlen
    unfold sendUsageReport
    rw [if_pos hlen, closeOutTick_lastReportTime]
    rw [if_pos rfl]

/-- Witness for C1: a concrete successful send clears the maps and
advances `lastReportTime` to the send time. -/
theorem sendUsageReport_retry_witness :
    sendUsageReport ⟨true, false⟩ ⟨some "a.com", some 1000, [], 500⟩ [] 3000 true =
      ({ closeOutTick ⟨true, false⟩ ⟨some "a.com", some 1000, [], 500⟩ 3000 with
          accumulatedTime := [], lastReportTime := 3000 }, [],
        some ⟨buildReport
                (closeOutTick ⟨true, false⟩ ⟨some "a.com", some 1000, [], 500⟩ 3000).accumulatedTime
                [], 500, 3000⟩) :=
  (sendUsageReport_retry ⟨true, false⟩ ⟨some "a.com", some 1000, [], 500⟩ [] 3000).2 (by decide)

/-- Counterexample for C1 as stated: with an in-progress focused interval
(`a.com` tracked since t=1000, send at t=3000), a `sendUsageReport` call
whose `sendMessage` returns failure does NOT leave the accumulated-time map
unchanged — the close-out step grows it from `[]` to `[("a.com", 2)]`. -/
theorem sendUsageReport_fail_mutates :
    (sendUsageReport ⟨true, false⟩ ⟨some "a.com", some 1000, [], 500⟩ [] 3000
        false).1.accumulatedTime = [("a.com", 2)]
    ∧ [("a.com", 2)] ≠ ([] : List (String × Nat)) := by
  constructor
  · decide
  · decide

/-- Claim C2 (code bug). Failing trace for the time-attribution bound:
starting unfocused and not idle, a navigation at t=1000 ms starts the
interval clock for `a.com` even though the browser is unfocused
(`recordTimeAndSwitchDomain` sets `domainStartTime` unconditionally); the
idle onset at t=71000 ms then runs `pauseTimeTracking`, which records the
elapsed 70 s without re-checking focus.  The sum attributed across domains
is 70 s although `isFocused && !isIdle` held for 0 ms of wall-clock time
— the code's own comment says time is recorded only while focused and not
idle. -/
theorem unfocused_time_attributed :
    sumAcc (runTrace ⟨⟨false, false⟩, ⟨none, none, [], 0⟩⟩
        [(1000, Ev.navigate (some "a.com")),
          (71000, Ev.idleChange true)]).tt.accumulatedTime = 70
    ∧ activeMs ⟨⟨false, false⟩, ⟨none, none, [], 0⟩⟩ 0
        [(1000, Ev.navigate (some "a.com")), (71000, Ev.idleChange true)] = 0 := by
  constructor
  · decide
  · decide

/-- Claim C6 (corrected; amended form). With an `Open` socket and a
non-throwing send, the delivered message is stamped with
`schema_version = 1`, `ts = now` and the client id, and `sendMessage`
returns success; with an `Open` socket whose send call throws, it returns
failure without propagating and delivers nothing; with any non-`Open`
socket it returns failure and delivers nothing. -/
theorem sendMessage_envelope {α : Type} (ws : Option ReadyState) (cid : Option String)
    (now : Nat) (msg : α) (th : Bool) :
    sendMessage (some ReadyState.opened) cid now msg false = (some ⟨msg, 1, now, cid⟩, true)
    ∧ sendMessage (some ReadyState.opened) cid now msg true = (none, false)
    ∧ (ws ≠ some ReadyState.opened → sendMessage ws cid now msg th = (none, false)) := by
  refine ⟨rfl, rfl, fun h => ?_⟩
  match ws with
  | none => rfl
  | some ReadyState.connecting => rfl
  | some ReadyState.opened => exact absurd rfl h
  | some ReadyState.closing => rfl
  | some ReadyState.closed => rfl

/-- Witness for C6: a `sendMessage` call with no socket fails and delivers
nothing. -/
theorem sendMessage_envelope_witness :
    sendMessage (none : Option ReadyState) (some "client") 5 (0 : Nat) false = (none, false) :=
  (sendMessage_envelope (none : Option ReadyState) (some "client") 5 (0 : Nat) false).2.2
    (by decide)

/-- Counterexample for C6 as stated: the socket is `Open`, yet when the
underlying send call throws (the `catch` branch of `sendMessage`), the
return value is failure, not success. -/
theorem sendMessage_open_can_fail :
    (sendMessage (some ReadyState.opened) (some "client") 7 (0 : Nat) true).2 = false := rfl

/-- Claim C8 (corrected; amended form). For a non-empty domain,
`needsMetadataUpdate` returns true iff the map holds no record, or the
recorded timestamp is `0` (a falsy timestamp is treated as no record), or
`now` minus the recorded timestamp exceeds 7 days. -/
theorem needsMetadataUpdate_eligibility (times : List (String × Nat)) (d : String) (now : Nat)
    (hd : d ≠ "") :
    needsMetadataUpdate times d now = true ↔
      lookupNat times d = none ∨ lookupNat times d = some 0 ∨
        ∃ t, lookupNat times d = some t ∧ METADATA_MAX_AGE_MS < now - t := by
  unfold needsMetadataUpdate
  rw [if_neg hd]
  cases hl : lookupNat times d with
  | none => simp
  | some t =>
    by_cases ht : t = 0
    · subst ht
      simp
    · simp [ht]

/-- Witness for C8: a domain with no record is eligible. -/
theorem needsMetadataUpdate_eligibility_witness :
    needsMetadataUpdate [] "a.com" 0 = true :=
  (needsMetadataUpdate_eligibility [] "a.com" 0 (by decide)).mpr (Or.inl rfl)

/-- Counterexample for C8 as stated: a record with `lastSentTimestamp = 0`
exists and is not older than 7 days at `now = 0`, yet `needsMetadataUpdate`
returns true (the JS truthiness test `!lastSent` treats `0` as missing). -/
theorem needsMetadataUpdate_zero_record :
    needsMetadataUpdate [("a.com", 0)] "a.com" 0 = true
    ∧ lookupNat [("a.com", 0)] "a.com" = some 0
    ∧ ¬ METADATA_MAX_AGE_MS < 0 - 0 := by
  refine ⟨by decide, by decide, by decide⟩

/-- Claim C7 (confirmed). An `inputStats` message for a trackable domain:
when the browser is focused and not idle, the deltas are added to exactly
that domain's accumulated-input entry (created from zeros when absent) and
no other entry changes; when unfocused or idle, the accumulated-input map
is left unchanged (the message is dropped). -/
theorem inputStats_gating (cs : CurrentState) (inp : List (String × InputEntry)) (d : String)
    (k c s : Nat) (m : ℚ) (hd : d ≠ "") :
    (cs.isFocused = true → cs.isIdle = false →
      lookupInput (handleInputStats cs inp (some d) k c s m) d =
          some (addDelta ((lookupInput inp d).getD ⟨0, 0, 0, 0⟩) k c s m)
        ∧ ∀ d2, d2 ≠ d →
            lookupInput (handleInputStats cs inp (some d) k c s m) d2 = lookupInput inp d2)
    ∧ (cs.isFocused = false ∨ cs.isIdle = true →
        handleInputStats cs inp (some d) k c s m = inp) := by
  constructor
  · intro hf hi
    have hcond : (truthyStr (some d) && cs.isFocused && !cs.isIdle) = true := by
      simp [truthyStr, hf, hi, hd]
    unfold handleInputStats
    rw [if_pos hcond]
    exact ⟨lookupInput_addInput_self inp d k c s m,
      fun d2 h2 => lookupInput_addInput_ne inp d d2 k c s m h2⟩
  · intro hcase
    have hcond : ¬ ((truthyStr (some d) && cs.isFocused && !cs.isIdle) = true) := by
      rcases hcase with hf | hi
      · simp [hf]
      · simp [hi]
    unfold handleInputStats
    rw [if_neg hcond]

/-- Witness for C7: while unfocused, an `inputStats` message changes
nothing. -/
theorem inputStats_gating_witness :
    handleInputStats ⟨false, false⟩ [] (some "a.com") 1 2 3 0 = [] :=
  (inputStats_gating ⟨false, false⟩ [] "a.com" 1 2 3 0 (by decide)).2 (Or.inl rfl)

/-- Claim C10 (confirmed). Every writer of the accumulated-time map
(`recordTimeAndSwitchDomain`, `pauseTimeTracking`, the tick close-out of
`sendUsageReport`) preserves strict positivity of all stored values, and
under that invariant a report entry with zero seconds can only come from
the input-only path (its domain has no accumulated-time entry at all). -/
theorem accumulatedTime_positive (cs : CurrentState) (tt : TimeTracking) (d : Option String)
    (now : Nat) (inp : List (String × InputEntry))
    (h : allPosTimes tt.accumulatedTime = true) :
    allPosTimes (recordTimeAndSwitchDomain cs tt d now).accumulatedTime = true
    ∧ allPosTimes (pauseTimeTracking tt now).accumulatedTime = true
    ∧ allPosTimes (closeOutTick cs tt now).accumulatedTime = true
    ∧ ∀ e ∈ buildReport tt.accumulatedTime inp, e.seconds = 0 →
        lookupNat tt.accumulatedTime e.domain = none := by
  rw [allPosTimes_iff] at h
  refine ⟨?_, ?_, ?_, ?_⟩
  · rw [allPosTimes_iff]
    unfold recordTimeAndSwitchDomain
    dsimp only
    split
    · split
      · split
        · next hpos => exact addTime_pos _ _ _ h hpos
        · exact h
      · exact h
    · exact h
  · rw [allPosTimes_iff]
    unfold pauseTimeTracking
    dsimp only
    split
    · split
      · next hpos => exact addTime_pos _ _ _ h hpos
      · exact h
    · exact h
  · rw [allPosTimes_iff]
    unfold closeOutTick
    dsimp only
    split
    · split
      · next hpos => exact addTime_pos _ _ _ h hpos
      · exact h
    · exact h
  · intro e he hz
    rw [buildReport, List.mem_append] at he
    rcases he with he | he
    · rcases List.mem_filterMap.mp he with ⟨p, hp, hf⟩
      have h3 := timeEntry_some _ _ _ hf
      exact absurd (h3.2.2.symm.trans hz) (Nat.pos_iff_ne_zero.mp h3.1)
    · rcases List.mem_filterMap.mp he with ⟨p, hp, hf⟩
      have h3 := inputOnlyEntry_some _ _ _ hf
      rw [h3.2.1]
      cases hl : lookupNat tt.accumulatedTime p.1 with
      | none => rfl
      | some v =>
        have hv0 : v = 0 := by
          have := h3.2.2
          rw [hl] at this
          simpa [truthyNat] using this
        subst hv0
        exact absurd (h _ (lookupNat_mem _ _ _ hl)) (by simp)

/-- Witness for C10: pausing a concrete positive-valued state keeps all
values positive. -/
theorem accumulatedTime_positive_witness :
    allPosTimes (pauseTimeTracking ⟨some "a.com", some 1000, [("b.com", 3)], 0⟩
        5000).accumulatedTime = true :=
  (accumulatedTime_positive ⟨true, false⟩ ⟨some "a.com", some 1000, [("b.com", 3)], 0⟩
    none 5000 [] (by decide)).2.1

/-- Claim C3 (corrected; amended form). The report builder copies
accumulated seconds unclamped, so a `usage_report` respects the peer's
limits exactly when the accumulator does at send time: if every
accumulated value is at most 35 and the values sum to at most 35, then
every report entry's seconds is at most 35 and the report's total seconds
is at most 35. -/
theorem usageReport_within_peer_limits (acc : List (String × Nat))
    (inp : List (String × InputEntry))
    (h1 : ∀ p ∈ acc, p.2 ≤ 35) (h2 : (acc.map Prod.snd).sum ≤ 35) :
    (∀ e ∈ buildReport acc inp, e.seconds ≤ 35)
    ∧ ((buildReport acc inp).map ReportEntry.seconds).sum ≤ 35 := by
  constructor
  · intro e he
    rw [buildReport, List.mem_append] at he
    rcases he with he | he
    · rcases List.mem_filterMap.mp he with ⟨p, hp, hf⟩
      rw [(timeEntry_some _ _ _ hf).2.2]
      exact h1 p hp
    · rcases List.mem_filterMap.mp he with ⟨p, hp, hf⟩
      rw [(inputOnlyEntry_some _ _ _ hf).1]
      exact Nat.zero_le _
  · rw [buildReport, List.map_append, List.sum_append, inputOnly_sum_zero, Nat.add_zero]
    exact Nat.le_trans (filterMap_timeEntry_sum_le inp acc) h2

/-- Witness for C3: a 30-second accumulator yields an in-limit report. -/
theorem usageReport_within_peer_limits_witness :
    (∀ e ∈ buildReport [("a.com", 30)] [], e.seconds ≤ 35)
    ∧ ((buildReport [("a.com", 30)] []).map ReportEntry.seconds).sum ≤ 35 :=
  usageReport_within_peer_limits [("a.com", 30)] [] (by decide) (by decide)

/-- Counterexample for C3 as stated: after 40 s of focused time have
accumulated (reachable after one failed send tick), the next successful
tick sends a `usage_report` whose single entry carries 40 seconds,
exceeding the peer's 35-second limit — the code never clamps. -/
theorem usageReport_exceeds_limit :
    (sendUsageReport ⟨true, false⟩ ⟨some "a.com", some 1000, [], 500⟩ [] 41000 true).2.2 =
      some ⟨[⟨"a.com", 40, 0, 0, 0, 0⟩], 500, 41000⟩
    ∧ ¬ (40 ≤ 35) := by
  refine ⟨by decide, by decide⟩

/-- Claim C4 (confirmed). `extractDomain` yields no domain for any parsed
URL whose scheme is not http/https, whose host matches the IPv4 literal
regex or contains `':'`, or whose `www.`-stripped host lacks a `'.'` or has
a final label shorter than 2 characters. -/
theorem extractDomain_untrackable (u : URLParts)
    (h : (u.protocol ≠ "http:" ∧ u.protocol ≠ "https:")
        ∨ iPv4Literal u.hostname.data = true
        ∨ hasChar u.hostname.data ':' = true
        ∨ hasChar (stripWWW u.hostname.data) '.' = false
        ∨ ((splitOnDot (stripWWW u.hostname.data)).getLastD []).length < 2) :
    extractDomainParts u = none := by
  unfold extractDomainParts
  split
  case isTrue => rfl
  case isFalse hp =>
    split
    case isTrue => rfl
    case isFalse hb =>
      split
      case isTrue => rfl
      case isFalse hdot =>
        split
        case isTrue => rfl
        case isFalse hlen =>
          exfalso
          rw [Bool.or_eq_true, not_or] at hb
          rcases h with h | h | h | h | h
          · exact hp h
          · exact hb.1 (by rw [stripWWW_of_iPv4 _ h]; exact h)
          · exact hb.2 (hasChar_colon_stripWWW _ h)
          · exact hdot h
          · exact hlen h

/-- Witness for C4: an internal `chrome:` URL yields no domain. -/
theorem extractDomain_untrackable_witness :
    extractDomainParts ⟨"chrome:", "settings"⟩ = none :=
  extractDomain_untrackable ⟨"chrome:", "settings"⟩ (Or.inl ⟨by decide, by decide⟩)

/-- Claim C5 (confirmed). For every URL `https://<host>/<path>` whose host
lowercases to `www.example.com` (any letter-casing, any path),
`extractDomain` returns `example.com`: the parser lowercases the host and
ignores the path, and the code strips the leading `www.` label. -/
theorem extractDomain_www_example (host path : String)
    (hcase : host.data.map Char.toLower = ("www.example.com" : String).data) :
    extractDomain ("https://" ++ host ++ "/" ++ path) = some "example.com" := by
  have hdata : (("https://" : String) ++ host ++ "/" ++ path).data
      = 'h' :: 't' :: 't' :: 'p' :: 's' :: ':' :: '/' :: '/' :: (host.data ++ '/' :: path.data) := by
    rw [data_append, data_append, data_append, List.append_assoc, List.append_assoc]
    rfl
  unfold extractDomain
  rw [hdata]
  show extractDomainParts ⟨"https:", hostOf (host.data ++ '/' :: path.data)⟩ = some "example.com"
  have hhost : hostOf (host.data ++ '/' :: path.data) = "www.example.com" := by
    unfold hostOf
    rw [takeWhile_append_of _ _ _ _ (host_not_delim host.data hcase) (by rfl), hcase]
  rw [hhost]
  decide

/-- Witness for C5: the mixed-case host `www.EXAMPLE.com` with path `path`
maps to `example.com`. -/
theorem extractDomain_www_example_witness :
    extractDomain ("https://" ++ "www.EXAMPLE.com" ++ "/" ++ "path") = some "example.com" :=
  extractDomain_www_example "www.EXAMPLE.com" "path" (by decide)

end WhatPulse
